import Mathlib

/-!
# A shallow embedding of `useLottiePlayer` (src/hooks/useLottiePlayer.ts)

The hook adapts an externally owned lottie animation handle (`AnimationItem`)
into a small player state machine.  We embed the observable behaviour of the
hook as pure Lean functions:

* the player state and the public event enumeration are inductive types;
* every callback invocation (`onPlayerEvent`, `onPlayerStateChange`), every
  call made into the animation handle, every `setPlayerState` call and every
  `setCurrentFrame` call is recorded in an ordered trace of `Eff` values;
* the React effect of lines 74-176 is the `bind`/`teardown` pair; the effect
  re-runs only when the `animationItem` reference changes (deps at line 175),
  so the listener closures keep the `currentFrame` value they captured when
  the binding was established (`Binding.capturedFrame`);
* `addEventListener`/`removeEventListener` may throw (the source wraps them in
  try/catch and swallows the error); the `Except`-level functions `bindE` and
  `teardownE` make the possible raise explicit, and the total functions
  `bind`/`teardown` are the caught versions;
* the whole hook lifecycle (control calls, engine events, handle rebinding) is
  the step relation `step` over `SysState`, folded by `run`.
-/

namespace LottieReact

/-- useLottiePlayer.ts:15-22. -/
inductive LottiePlayerState where
  | Loading
  | Playing
  | Paused
  | Stopped
  | Frozen
  | Error
deriving DecidableEq, Repr

/-- useLottiePlayer.ts:24-35. -/
inductive LottiePlayerEvent where
  | Load
  | Error
  | Ready
  | Play
  | Pause
  | Stop
  | Freeze
  | LoopCompleted
  | Complete
  | Frame
deriving DecidableEq, Repr

/-- The externally owned animation handle, restricted to the fields the hook
reads (`autoplay` at line 128; the live `currentFrame` readout of line 103 is
delivered as the payload of the frame-tick event instead, because it varies
between ticks). -/
structure AnimationItem where
  autoplay : Bool
deriving DecidableEq, Repr

/-- A call made into the animation handle's public surface. -/
inductive HandleAction where
  | play
  | pause
  | goToAndStop (value : Int) (isFrame : Bool)
  | goToAndPlay (value : Int) (isFrame : Bool)
  | setSpeed (speed : Int)
  | addEventListener (name : String)
  | removeEventListener (name : String)
deriving DecidableEq, Repr

/-- One observable effect of the hook, in order of occurrence. -/
inductive Eff where
  /-- a `setPlayerState` call with the given target state -/
  | setState (st : LottiePlayerState)
  /-- an invocation of the host's `onPlayerStateChange` callback -/
  | stateChange (st : LottiePlayerState)
  /-- an invocation of the host's `onPlayerEvent` callback -/
  | playerEvent (e : LottiePlayerEvent)
  /-- a call into the animation handle -/
  | handleCall (a : HandleAction)
  /-- a `setCurrentFrame` call (the tracked-frame update of line 104) -/
  | trackFrame (f : Int)
deriving DecidableEq, Repr

/-- Whether the effect is an `onPlayerEvent` invocation. -/
def Eff.isEmit : Eff → Bool
  | .playerEvent _ => true
  | _ => false

/-- Whether the effect is a call into the animation handle. -/
def Eff.isHandleCall : Eff → Bool
  | .handleCall _ => true
  | _ => false

/-- Whether the effect is an `addEventListener` call. -/
def Eff.isAddListener : Eff → Bool
  | .handleCall (.addEventListener _) => true
  | _ => false

/-- Whether the effect is a `removeEventListener` call. -/
def Eff.isRemoveListener : Eff → Bool
  | .handleCall (.removeEventListener _) => true
  | _ => false

/-- Whether the effect is a `setPlayerState` call. -/
def Eff.isSetState : Eff → Bool
  | .setState _ => true
  | _ => false

/-- Which of the two optional host callbacks were supplied
(useLottiePlayer.ts:37-43). -/
structure Config where
  hasOnPlayerEvent : Bool
  hasOnPlayerStateChange : Bool
deriving DecidableEq, Repr

/-- The hook's own React state: the player state (line 46) and the tracked
current frame (line 56). -/
structure PlayerCoreState where
  playerState : LottiePlayerState
  currentFrame : Int
deriving DecidableEq, Repr

/-- Modelled from the spec: `usePlayerState` (imported at
useLottiePlayer.ts:5 from src/hooks/usePlayerState.ts, a file that is not
among the sources).  Spec section 4.1: `setState(next)` replaces the current
state and, if `next` differs from the current value, invokes the registered
change-notification callback; useLottiePlayer.ts:46-53 wires that callback to
the host's `onPlayerStateChange`. -/
def setPlayerState (cfg : Config) (s : PlayerCoreState) (next : LottiePlayerState) :
    PlayerCoreState × List Eff :=
  ({ s with playerState := next },
    Eff.setState next ::
      (if next ≠ s.playerState ∧ cfg.hasOnPlayerStateChange = true then
        [Eff.stateChange next]
      else []))

/-- useLottiePlayer.ts:62-69: invoke `onPlayerEvent` when it was supplied. -/
def triggerEvent (cfg : Config) (e : LottiePlayerEvent) : List Eff :=
  if cfg.hasOnPlayerEvent then [Eff.playerEvent e] else []

/-- useLottiePlayer.ts:182-190. -/
def play (cfg : Config) (animationItem : Option AnimationItem) (s : PlayerCoreState) :
    PlayerCoreState × List Eff :=
  match animationItem with
  | none => (s, [])
  | some _ =>
    let p := setPlayerState cfg s .Playing
    (p.1, triggerEvent cfg .Play ++ [Eff.handleCall .play] ++ p.2)

/-- useLottiePlayer.ts:193-201. -/
def pause (cfg : Config) (animationItem : Option AnimationItem) (s : PlayerCoreState) :
    PlayerCoreState × List Eff :=
  match animationItem with
  | none => (s, [])
  | some _ =>
    let p := setPlayerState cfg s .Paused
    (p.1, triggerEvent cfg .Pause ++ [Eff.handleCall .pause] ++ p.2)

/-- useLottiePlayer.ts:204-212 (`goToAndStop(1)` passes no second argument,
so `isFrame` is falsy). -/
def stop (cfg : Config) (animationItem : Option AnimationItem) (s : PlayerCoreState) :
    PlayerCoreState × List Eff :=
  match animationItem with
  | none => (s, [])
  | some _ =>
    let p := setPlayerState cfg s .Stopped
    (p.1, triggerEvent cfg .Stop ++ [Eff.handleCall (.goToAndStop 1 false)] ++ p.2)

/-- useLottiePlayer.ts:215-217 (`animationItem?.setSpeed` is optional
chaining: nothing happens on an absent handle). -/
def setSpeed (animationItem : Option AnimationItem) (s : PlayerCoreState) (speed : Int) :
    PlayerCoreState × List Eff :=
  match animationItem with
  | none => (s, [])
  | some _ => (s, [Eff.handleCall (.setSpeed speed)])

/-- useLottiePlayer.ts:220-228.  Note that only the `goToAndStop` /
`goToAndPlay` calls are guarded by optional chaining; the `setPlayerState`
calls run even when the handle is absent. -/
def setSeeker (cfg : Config) (animationItem : Option AnimationItem) (s : PlayerCoreState)
    (seek : Int) (shouldPlay : Bool) : PlayerCoreState × List Eff :=
  if shouldPlay = false ∨ s.playerState ≠ LottiePlayerState.Playing then
    let acts : List Eff :=
      match animationItem with
      | none => []
      | some _ => [Eff.handleCall (.goToAndStop seek true)]
    let p := setPlayerState cfg s .Paused
    (p.1, acts ++ p.2)
  else
    let acts : List Eff :=
      match animationItem with
      | none => []
      | some _ => [Eff.handleCall (.goToAndPlay seek true)]
    let p := setPlayerState cfg s .Playing
    (p.1, acts ++ p.2)

/-- The native engine events the listeners of useLottiePlayer.ts:85-133 react
to.  The frame tick carries the handle's live `currentFrame` readout of line
103, which varies between ticks. -/
inductive EngineEvent where
  | complete
  | loopComplete
  | enterFrame (reportedFrame : Int)
  | segmentStart
  | configReady
  | dataReady
  | dataFailed
  | loadedImages
  | domLoaded
  | destroyed
deriving DecidableEq, Repr

/-- The listener bodies of useLottiePlayer.ts:85-133.  `capturedFrame` is the
value of the `currentFrame` state captured by the effect closure when the
binding was established; the effect re-runs only when `animationItem`
changes (deps at line 175), so line 103 compares the live readout against
this captured value, not against the latest tracked value. -/
def handleEngineEvent (cfg : Config) (item : AnimationItem) (capturedFrame : Int)
    (s : PlayerCoreState) : EngineEvent → PlayerCoreState × List Eff
  | .complete =>
    let p := setPlayerState cfg s .Stopped
    (p.1, p.2 ++ triggerEvent cfg .Complete)
  | .loopComplete => (s, triggerEvent cfg .LoopCompleted)
  | .enterFrame reported =>
    if reported ≠ capturedFrame then
      ({ s with currentFrame := reported },
        triggerEvent cfg .Frame ++ [Eff.trackFrame reported])
    else (s, triggerEvent cfg .Frame)
  | .segmentStart => (s, [])
  | .configReady => (s, [])
  | .dataReady => (s, triggerEvent cfg .Ready)
  | .dataFailed => setPlayerState cfg s .Error
  | .loadedImages => (s, [])
  | .domLoaded =>
    let st := if item.autoplay then LottiePlayerState.Playing else LottiePlayerState.Stopped
    let p := setPlayerState cfg s st
    (p.1, triggerEvent cfg .Load ++ p.2)
  | .destroyed => (s, [])

/-- The event names registered at useLottiePlayer.ts:85-133, in order. -/
def listenerNames : List String :=
  ["complete", "loopComplete", "enterFrame", "segmentStart", "config_ready",
    "data_ready", "data_failed", "loaded_images", "DOMLoaded", "destroy"]

/-- The error a not-yet-ready or already-destroyed handle raises from
`addEventListener` / `removeEventListener` (comments at
useLottiePlayer.ts:142-146 and 154-158). -/
inductive JsError where
  | jsError
deriving DecidableEq, Repr

/-- The `addEventListener` call of useLottiePlayer.ts:140: it either succeeds
(the call is recorded in the trace) or throws.  `fails` is the external
choice of whether the handle throws for this listener. -/
def addListenerCall (fails : Bool) (name : String) : Except JsError (List Eff) :=
  if fails then Except.error .jsError
  else Except.ok [Eff.handleCall (.addEventListener name)]

/-- The `removeEventListener` call of useLottiePlayer.ts:152. -/
def removeListenerCall (fails : Bool) (name : String) : Except JsError (List Eff) :=
  if fails then Except.error .jsError
  else Except.ok [Eff.handleCall (.removeEventListener name)]

/-- useLottiePlayer.ts:139-147: `try { addEventListener } catch (e) { }` —
the error is swallowed. -/
def registerStep (fails : Bool) (name : String) : List Eff :=
  match addListenerCall fails name with
  | .ok effs => effs
  | .error _ => []

/-- useLottiePlayer.ts:150-160: the deregister closure, with its own
swallowing try/catch. -/
def deregisterStep (fails : Bool) (name : String) : List Eff :=
  match removeListenerCall fails name with
  | .ok effs => effs
  | .error _ => []

/-- The data the effect closure of one binding keeps: the handle it was
established for and the `currentFrame` value it captured. -/
structure Binding where
  item : AnimationItem
  capturedFrame : Int
deriving DecidableEq, Repr

/-- The outcome of one run of the effect body. -/
structure BindResult where
  core : PlayerCoreState
  trace : List Eff
  binding : Option Binding
deriving DecidableEq, Repr

/-- One run of the effect body, useLottiePlayer.ts:74-176: with no handle it
logs and returns without registering a cleanup (lines 76-79); otherwise it
sets the player state to `Loading` (line 82) and then attaches one listener
per name, each attachment wrapped in a swallowing try/catch.  `failsAdd`
says, per event name, whether the handle throws from `addEventListener`. -/
def bind (cfg : Config) (animationItem : Option AnimationItem) (failsAdd : String → Bool)
    (s : PlayerCoreState) : BindResult :=
  match animationItem with
  | none => ⟨s, [], none⟩
  | some item =>
    let p := setPlayerState cfg s .Loading
    let regEffs := (listenerNames.map fun n => registerStep (failsAdd n) n).flatten
    ⟨p.1, p.2 ++ regEffs, some ⟨item, s.currentFrame⟩⟩

/-- The cleanup of useLottiePlayer.ts:164-168: run every deregister closure
once, in registration order, then reset the player state to `Loading`. -/
def teardown (cfg : Config) (failsRemove : String → Bool) (s : PlayerCoreState) :
    PlayerCoreState × List Eff :=
  let remEffs := (listenerNames.map fun n => deregisterStep (failsRemove n) n).flatten
  let p := setPlayerState cfg s .Loading
  (p.1, remEffs ++ p.2)

/-- `Except`-level catch, the meaning of a JS `try`/`catch` block. -/
def catchJs {α : Type} (x : Except JsError α) (h : JsError → Except JsError α) :
    Except JsError α :=
  match x with
  | .ok a => .ok a
  | .error e => h e

/-- Sequential traversal in the exception monad: an uncaught raise from any
element stops the loop and propagates. -/
def mapExcept (f : String → Except JsError (List Eff)) :
    List String → Except JsError (List (List Eff))
  | [] => Except.ok []
  | n :: l => do
    let x ← f n
    let xs ← mapExcept f l
    return x :: xs

/-- The attach step with the raise made explicit: the caught
`addEventListener` call, yielding `[]` when the handle threw. -/
def registerStepE (fails : Bool) (name : String) : Except JsError (List Eff) :=
  catchJs (addListenerCall fails name) fun _ => .ok []

/-- The deregister closure with the raise made explicit. -/
def deregisterStepE (fails : Bool) (name : String) : Except JsError (List Eff) :=
  catchJs (removeListenerCall fails name) fun _ => .ok []

/-- The effect body in the `Except` monad: an uncaught raise from any
listener attachment would propagate to the caller here. -/
def bindE (cfg : Config) (animationItem : Option AnimationItem) (failsAdd : String → Bool)
    (s : PlayerCoreState) : Except JsError BindResult :=
  match animationItem with
  | none => Except.ok ⟨s, [], none⟩
  | some item => do
    let p := setPlayerState cfg s .Loading
    let regs ← mapExcept (fun n => registerStepE (failsAdd n) n) listenerNames
    return ⟨p.1, p.2 ++ regs.flatten, some ⟨item, s.currentFrame⟩⟩

/-- The cleanup in the `Except` monad. -/
def teardownE (cfg : Config) (failsRemove : String → Bool) (s : PlayerCoreState) :
    Except JsError (PlayerCoreState × List Eff) := do
  let rems ← mapExcept (fun n => deregisterStepE (failsRemove n) n) listenerNames
  let p := setPlayerState cfg s .Loading
  return (p.1, rems.flatten ++ p.2)

/-- One external stimulus to the hook: a control-surface call, an engine
event delivered to the binding's listeners, or a change of the handle
reference (which re-runs the effect: previous cleanup, then new bind). -/
inductive Cmd where
  | play
  | pause
  | stop
  | setSpeed (speed : Int)
  | setSeeker (seek : Int) (shouldPlay : Bool)
  | engine (ev : EngineEvent)
  | rebind (item : Option AnimationItem) (failsAdd : String → Bool)
      (failsRemove : String → Bool)

/-- The full state of a mounted hook: its React state, the current
`animationItem` argument, and the binding established by the last effect run
(absent when the last run saw no handle and registered no cleanup). -/
structure SysState where
  core : PlayerCoreState
  handle : Option AnimationItem
  binding : Option Binding

/-- The state of a freshly mounted hook with a null `animationItem`:
player state `Loading` (line 47), tracked frame `0` (line 56). -/
def initState : SysState :=
  ⟨⟨.Loading, 0⟩, none, none⟩

/-- One stimulus applied to the mounted hook. -/
def step (cfg : Config) (σ : SysState) : Cmd → SysState × List Eff
  | .play =>
    let p := play cfg σ.handle σ.core
    ({ σ with core := p.1 }, p.2)
  | .pause =>
    let p := pause cfg σ.handle σ.core
    ({ σ with core := p.1 }, p.2)
  | .stop =>
    let p := stop cfg σ.handle σ.core
    ({ σ with core := p.1 }, p.2)
  | .setSpeed v =>
    let p := setSpeed σ.handle σ.core v
    ({ σ with core := p.1 }, p.2)
  | .setSeeker seek shouldPlay =>
    let p := setSeeker cfg σ.handle σ.core seek shouldPlay
    ({ σ with core := p.1 }, p.2)
  | .engine ev =>
    match σ.binding with
    | none => (σ, [])
    | some b =>
      let p := handleEngineEvent cfg b.item b.capturedFrame σ.core ev
      ({ σ with core := p.1 }, p.2)
  | .rebind item failsAdd failsRemove =>
    let td :=
      match σ.binding with
      | none => (σ.core, ([] : List Eff))
      | some _ => teardown cfg failsRemove σ.core
    let r := bind cfg item failsAdd td.1
    (⟨r.core, item, r.binding⟩, td.2 ++ r.trace)

/-- Fold a sequence of stimuli, accumulating the trace. -/
def run (cfg : Config) (σ : SysState) : List Cmd → SysState × List Eff
  | [] => (σ, [])
  | c :: cs =>
    let p := step cfg σ c
    let q := run cfg p.1 cs
    (q.1, p.2 ++ q.2)

/-! ## Claim theorems -/

/-- C1, counterexample: a `setSeeker` call made while the animation handle is
absent still changes the player state — starting from `Playing`, the call
`setSeeker 10 false` on a null handle leaves the state `Paused`, because the
`setPlayerState` calls at useLottiePlayer.ts:223/226 are not guarded by the
handle check. -/
theorem setSeeker_absentHandle_mutates_state :
    (setSeeker ⟨true, true⟩ none ⟨LottiePlayerState.Playing, 0⟩ 10 false).1.playerState
        = LottiePlayerState.Paused
      ∧ ((LottiePlayerState.Paused == LottiePlayerState.Playing) = false) := by
  decide

/-- C1 (amended): with an absent handle, `play`, `pause`, `stop` and
`setSpeed` emit no event, make no handle call and leave the state unchanged;
`setSeeker` emits no event and makes no handle call, but still sets the
player state (`Paused`, or `Playing` when resuming from `Playing`), leaving
the tracked frame unchanged. -/
theorem absentHandle_ops (cfg : Config) (s : PlayerCoreState) (speed seek : Int)
    (sp : Bool) :
    play cfg none s = (s, []) ∧
    pause cfg none s = (s, []) ∧
    stop cfg none s = (s, []) ∧
    setSpeed none s speed = (s, []) ∧
    ((setSeeker cfg none s seek sp).2.all fun e => !e.isEmit && !e.isHandleCall) = true ∧
    (setSeeker cfg none s seek sp).1.playerState =
      (if sp = false ∨ s.playerState ≠ LottiePlayerState.Playing then
        LottiePlayerState.Paused
      else LottiePlayerState.Playing) ∧
    (setSeeker cfg none s seek sp).1.currentFrame = s.currentFrame := by
  refine ⟨rfl, rfl, rfl, rfl, ?_, ?_, ?_⟩ <;>
    · unfold setSeeker setPlayerState
      split <;> (try split) <;>
        simp_all [Eff.isEmit, Eff.isHandleCall]

/-- C5: `setSeeker seek shouldPlay` on a present handle moves the handle with
`goToAndStop(seek, true)` and sets the state to `Paused` exactly when
`shouldPlay` is false or the current state is not `Playing`; otherwise it
moves the handle with `goToAndPlay(seek, true)` and sets the state to
`Playing`. -/
theorem setSeeker_presentHandle_spec (cfg : Config) (item : AnimationItem)
    (s : PlayerCoreState) (seek : Int) (sp : Bool) :
    (setSeeker cfg (some item) s seek sp).1.playerState =
      (if sp = false ∨ s.playerState ≠ LottiePlayerState.Playing then
        LottiePlayerState.Paused
      else LottiePlayerState.Playing) ∧
    (Eff.handleCall (.goToAndStop seek true) ∈ (setSeeker cfg (some item) s seek sp).2 ↔
      (sp = false ∨ s.playerState ≠ LottiePlayerState.Playing)) ∧
    (Eff.handleCall (.goToAndPlay seek true) ∈ (setSeeker cfg (some item) s seek sp).2 ↔
      ¬(sp = false ∨ s.playerState ≠ LottiePlayerState.Playing)) := by
  unfold setSeeker setPlayerState
  split <;> rename_i h <;> (try split) <;> simp_all

/-- C6: a completion event from the handle sets the player state to `Stopped`
for every prior state, and the `Complete` player event reaches
`onPlayerEvent` exactly when that callback was supplied. -/
theorem complete_event_stops_and_emits (cfg : Config) (item : AnimationItem)
    (cap : Int) (s : PlayerCoreState) :
    (handleEngineEvent cfg item cap s .complete).1.playerState
        = LottiePlayerState.Stopped ∧
    (Eff.playerEvent .Complete ∈ (handleEngineEvent cfg item cap s .complete).2 ↔
      cfg.hasOnPlayerEvent = true) := by
  unfold handleEngineEvent setPlayerState triggerEvent
  constructor
  · rfl
  · split <;> (try split) <;> simp_all

/-- C7: the fully-loaded (`DOMLoaded`) event sets the player state to
`Playing` when the handle's autoplay flag is set and to `Stopped` otherwise,
and the `Load` player event reaches `onPlayerEvent` exactly when that
callback was supplied. -/
theorem domLoaded_event_spec (cfg : Config) (item : AnimationItem)
    (cap : Int) (s : PlayerCoreState) :
    (handleEngineEvent cfg item cap s .domLoaded).1.playerState =
      (if item.autoplay then LottiePlayerState.Playing else LottiePlayerState.Stopped) ∧
    (Eff.playerEvent .Load ∈ (handleEngineEvent cfg item cap s .domLoaded).2 ↔
      cfg.hasOnPlayerEvent = true) := by
  unfold handleEngineEvent setPlayerState triggerEvent
  constructor
  · rfl
  · split <;> (try split) <;> simp_all

/-- C2, counterexample: mount with a handle (tracked frame 0 is captured by
the listener closure), deliver a frame tick reporting frame 7 (the tracked
value becomes 7), then deliver a second, identical tick reporting frame 7.
The reported frame now equals the last tracked value, yet the handler still
issues a redundant `setCurrentFrame 7`, because line 103 compares against the
captured value 0, not the latest tracked value. -/
theorem enterFrame_redundant_update :
    (run ⟨true, true⟩ initState
        [Cmd.rebind (some ⟨false⟩) (fun _ => false) (fun _ => false),
          Cmd.engine (.enterFrame 7)]).1.core.currentFrame = 7 ∧
    Eff.trackFrame 7 ∈
      (step ⟨true, true⟩
        (run ⟨true, true⟩ initState
          [Cmd.rebind (some ⟨false⟩) (fun _ => false) (fun _ => false),
            Cmd.engine (.enterFrame 7)]).1
        (Cmd.engine (.enterFrame 7))).2 := by
  decide

/-- C2 (amended): a frame tick always emits the `Frame` event (when
`onPlayerEvent` was supplied), and the tracked-frame update (`setCurrentFrame`)
is issued exactly when the reported frame differs from the frame value the
binding captured when its listeners were registered — not from the latest
tracked value. -/
theorem enterFrame_update_vs_capturedFrame (cfg : Config) (item : AnimationItem)
    (cap : Int) (s : PlayerCoreState) (reported : Int) :
    (Eff.playerEvent .Frame ∈
        (handleEngineEvent cfg item cap s (.enterFrame reported)).2 ↔
      cfg.hasOnPlayerEvent = true) ∧
    (Eff.trackFrame reported ∈
        (handleEngineEvent cfg item cap s (.enterFrame reported)).2 ↔
      reported ≠ cap) ∧
    (handleEngineEvent cfg item cap s (.enterFrame reported)).1.currentFrame =
      (if reported = cap then s.currentFrame else reported) := by
  unfold handleEngineEvent triggerEvent
  split <;> (try split) <;> simp_all

/-- Every element produced by one attachment step is an `addEventListener`
call for that listener's event name. -/
theorem eq_of_mem_registerStep {e : Eff} {f : Bool} {n : String}
    (h : e ∈ registerStep f n) : e = Eff.handleCall (.addEventListener n) := by
  cases f <;> simp [registerStep, addListenerCall] at h
  exact h

/-- Every element produced by one deregister closure is a
`removeEventListener` call for that listener's event name. -/
theorem eq_of_mem_deregisterStep {e : Eff} {f : Bool} {n : String}
    (h : e ∈ deregisterStep f n) : e = Eff.handleCall (.removeEventListener n) := by
  cases f <;> simp [deregisterStep, removeListenerCall] at h
  exact h

/-- Everything the attachment loop of one binding puts in the trace is an
`addEventListener` call. -/
theorem isAdd_of_mem_regEffs {e : Eff} {fA : String → Bool}
    (h : e ∈ (listenerNames.map fun n => registerStep (fA n) n).flatten) :
    e.isAddListener = true := by
  rcases List.mem_flatten.mp h with ⟨l, hl, hel⟩
  rcases List.mem_map.mp hl with ⟨n, _, rfl⟩
  rw [eq_of_mem_registerStep hel]
  rfl

/-- Everything the deregistration loop puts in the trace is a
`removeEventListener` call. -/
theorem isRemove_of_mem_remEffs {e : Eff} {fR : String → Bool}
    (h : e ∈ (listenerNames.map fun n => deregisterStep (fR n) n).flatten) :
    e.isRemoveListener = true := by
  rcases List.mem_flatten.mp h with ⟨l, hl, hel⟩
  rcases List.mem_map.mp hl with ⟨n, _, rfl⟩
  rw [eq_of_mem_deregisterStep hel]
  rfl

/-- Everything a `setPlayerState` call puts in the trace is the state
assignment itself or the change notification for the same target state. -/
theorem eq_of_mem_setPlayerState_out {cfg : Config} {s : PlayerCoreState}
    {st : LottiePlayerState} {e : Eff} (h : e ∈ (setPlayerState cfg s st).2) :
    e = Eff.setState st ∨ e = Eff.stateChange st := by
  simp only [setPlayerState] at h
  rcases List.mem_cons.mp h with rfl | h2
  · exact Or.inl rfl
  · rcases em (st ≠ s.playerState ∧ cfg.hasOnPlayerStateChange = true) with hc | hc
    · simp only [if_pos hc, List.mem_singleton] at h2
      exact Or.inr h2
    · simp [if_neg hc] at h2

/-- Everything `triggerEvent` puts in the trace is the `onPlayerEvent`
invocation for the given event. -/
theorem eq_of_mem_triggerEvent {cfg : Config} {ev : LottiePlayerEvent} {e : Eff}
    (h : e ∈ triggerEvent cfg ev) : e = Eff.playerEvent ev := by
  by_cases hc : cfg.hasOnPlayerEvent <;> simp [triggerEvent, hc] at h
  exact h

/-- The trace of a binding on a present handle, unfolded. -/
theorem bind_some_trace (cfg : Config) (item : AnimationItem) (fA : String → Bool)
    (s : PlayerCoreState) :
    (bind cfg (some item) fA s).trace =
      (setPlayerState cfg s .Loading).2 ++
        (listenerNames.map fun n => registerStep (fA n) n).flatten := rfl

/-- The trace of a teardown, unfolded. -/
theorem teardown_trace (cfg : Config) (fR : String → Bool) (s : PlayerCoreState) :
    (teardown cfg fR s).2 =
      (listenerNames.map fun n => deregisterStep (fR n) n).flatten ++
        (setPlayerState cfg s .Loading).2 := rfl

/-- C3: binding with an absent handle registers nothing, produces no effect
and leaves the state unchanged (and returns no cleanup); binding with a
present handle puts the `Loading` state assignment first in its trace —
before any listener registration — and performs no other state assignment in
that run. -/
theorem bind_absent_noop_and_loading_first (cfg : Config) (item : AnimationItem)
    (fA : String → Bool) (s : PlayerCoreState) :
    bind cfg none fA s = ⟨s, [], none⟩ ∧
    (bind cfg (some item) fA s).trace.head?
        = some (Eff.setState LottiePlayerState.Loading) ∧
    ((bind cfg (some item) fA s).trace.all fun e =>
      !e.isSetState || (e == Eff.setState LottiePlayerState.Loading)) = true := by
  refine ⟨rfl, rfl, ?_⟩
  rw [List.all_eq_true]
  intro e he
  rw [bind_some_trace] at he
  rcases List.mem_append.mp he with hout | hreg
  · rcases eq_of_mem_setPlayerState_out hout with rfl | rfl <;> rfl
  · rcases List.mem_flatten.mp hreg with ⟨l, hl, hel⟩
    rcases List.mem_map.mp hl with ⟨n, _, rfl⟩
    rw [eq_of_mem_registerStep hel]
    rfl

/-- C4: the teardown of a binding deregisters every one of the ten listeners
exactly once (counted when the handle raises nothing), then — after all the
removals — resets the player state to `Loading`; when the handle reference
changes while a binding is in place, the full teardown trace of the old
binding precedes the new bind trace, the teardown registers nothing and the
bind removes nothing. -/
theorem teardown_exactly_once_and_rebind_order (cfg : Config) (fA fR : String → Bool)
    (s core : PlayerCoreState) (hdl item2 : Option AnimationItem) (b : Binding) :
    (listenerNames.all fun n =>
      (teardown cfg (fun _ => false) s).2.count
        (Eff.handleCall (.removeEventListener n)) == 1) = true ∧
    (teardown cfg fR s).1.playerState = LottiePlayerState.Loading ∧
    (∃ t1 t2, (teardown cfg fR s).2 = t1 ++ t2 ∧
      t1.all Eff.isRemoveListener = true ∧
      t2.head? = some (Eff.setState LottiePlayerState.Loading) ∧
      (t2.all fun e => !e.isHandleCall) = true) ∧
    (step cfg ⟨core, hdl, some b⟩ (Cmd.rebind item2 fA fR)).2 =
      (teardown cfg fR core).2 ++
        (bind cfg item2 fA (teardown cfg fR core).1).trace ∧
    ((teardown cfg fR core).2.all fun e => !e.isAddListener) = true ∧
    ((bind cfg item2 fA (teardown cfg fR core).1).trace.all fun e =>
      !e.isRemoveListener) = true := by
  have houts : ∀ n : String,
      (setPlayerState cfg s .Loading).2.count
        (Eff.handleCall (.removeEventListener n)) = 0 := by
    intro n
    rw [List.count_eq_zero]
    intro hmem
    rcases eq_of_mem_setPlayerState_out hmem with h | h <;> simp at h
  refine ⟨?_, rfl, ⟨_, _, teardown_trace cfg fR s, ?_, rfl, ?_⟩, rfl, ?_, ?_⟩
  · rw [List.all_eq_true]
    intro n hn
    rw [teardown_trace, List.count_append, houts n]
    fin_cases hn <;> decide
  · rw [List.all_eq_true]
    intro e he
    exact isRemove_of_mem_remEffs he
  · rw [List.all_eq_true]
    intro e he
    rcases eq_of_mem_setPlayerState_out he with rfl | rfl <;> rfl
  · rw [List.all_eq_true]
    intro e he
    rw [teardown_trace] at he
    rcases List.mem_append.mp he with hrem | hout
    · rcases List.mem_flatten.mp hrem with ⟨l, hl, hel⟩
      rcases List.mem_map.mp hl with ⟨n, _, rfl⟩
      rw [eq_of_mem_deregisterStep hel]
      rfl
    · rcases eq_of_mem_setPlayerState_out hout with rfl | rfl <;> rfl
  · rcases item2 with _ | it
    · rfl
    · rw [List.all_eq_true]
      intro e he
      rw [bind_some_trace] at he
      rcases List.mem_append.mp he with hout | hreg
      · rcases eq_of_mem_setPlayerState_out hout with rfl | rfl <;> rfl
      · rcases List.mem_flatten.mp hreg with ⟨l, hl, hel⟩
        rcases List.mem_map.mp hl with ⟨n, _, rfl⟩
        rw [eq_of_mem_registerStep hel]
        rfl

/-- The caught attach step never raises: it returns what the total version
returns. -/
theorem registerStepE_ok (f : Bool) (n : String) :
    registerStepE f n = Except.ok (registerStep f n) := by
  cases f <;> rfl

/-- The caught deregister step never raises. -/
theorem deregisterStepE_ok (f : Bool) (n : String) :
    deregisterStepE f n = Except.ok (deregisterStep f n) := by
  cases f <;> rfl

/-- The whole attachment loop never raises, whatever the handle does. -/
theorem mapM_registerStepE (fA : String → Bool) (l : List String) :
    mapExcept (fun n => registerStepE (fA n) n) l
      = Except.ok (l.map fun n => registerStep (fA n) n) := by
  induction l with
  | nil => rfl
  | cons n l ih =>
    rw [mapExcept, ih]
    simp only [registerStepE_ok]
    rfl

/-- The whole deregistration loop never raises, whatever the handle does. -/
theorem mapM_deregisterStepE (fR : String → Bool) (l : List String) :
    mapExcept (fun n => deregisterStepE (fR n) n) l
      = Except.ok (l.map fun n => deregisterStep (fR n) n) := by
  induction l with
  | nil => rfl
  | cons n l ih =>
    rw [mapExcept, ih]
    simp only [deregisterStepE_ok]
    rfl

/-- C8: no operation propagates an exception — binding and teardown, run in
the exception monad where every listener (de)registration against the handle
may raise, always return normally with the value of the total model, for
every pattern of handle failures; and a data load failure is signalled only
by the `Error` player state, never by a raised fault and never through
`onPlayerEvent`. -/
theorem no_fault_propagates (cfg : Config) (item : Option AnimationItem)
    (fA fR : String → Bool) (s : PlayerCoreState) (it : AnimationItem) (cap : Int) :
    bindE cfg item fA s = Except.ok (bind cfg item fA s) ∧
    teardownE cfg fR s = Except.ok (teardown cfg fR s) ∧
    (handleEngineEvent cfg it cap s .dataFailed).1.playerState
        = LottiePlayerState.Error ∧
    ((handleEngineEvent cfg it cap s .dataFailed).2.all fun e => !e.isEmit) = true := by
  refine ⟨?_, ?_, rfl, ?_⟩
  · rcases item with _ | it2
    · rfl
    · simp [bindE, bind, mapM_registerStepE]
  · simp [teardownE, teardown, mapM_deregisterStepE]
  · rw [List.all_eq_true]
    intro e he
    rcases eq_of_mem_setPlayerState_out
        (show e ∈ (setPlayerState cfg s .Error).2 from he) with rfl | rfl <;> rfl

/-- No single step assigns the `Frozen` state: every state assignment made by
a control call, an engine event or a rebind targets `Loading`, `Playing`,
`Paused`, `Stopped` or `Error`. -/
theorem step_not_frozen (cfg : Config) (σ : SysState) (c : Cmd)
    (h : ¬ σ.core.playerState = LottiePlayerState.Frozen) :
    ¬ (step cfg σ c).1.core.playerState = LottiePlayerState.Frozen := by
  obtain ⟨core, hdl, bnd⟩ := σ
  cases c with
  | play => cases hdl <;> simp_all [step, play, setPlayerState]
  | pause => cases hdl <;> simp_all [step, pause, setPlayerState]
  | stop => cases hdl <;> simp_all [step, stop, setPlayerState]
  | setSpeed v => cases hdl <;> simp_all [step, setSpeed]
  | setSeeker seek sp =>
    cases hdl <;> simp [step, setSeeker, setPlayerState] <;> split <;> simp
  | engine ev =>
    cases bnd with
    | none => simpa [step] using h
    | some b =>
      cases ev <;>
        simp_all [step, handleEngineEvent, setPlayerState] <;>
        split <;> simp_all
  | rebind item fA fR =>
    cases bnd <;> cases item <;> simp_all [step, bind, teardown, setPlayerState]

/-- C9: along every sequence of engine events, control-surface calls and
handle rebinds, the player state of the mounted hook never takes the value
`Frozen`. -/
theorem frozen_never_assigned (cfg : Config) (cmds : List Cmd) :
    ((run cfg initState cmds).1.core.playerState == LottiePlayerState.Frozen)
      = false := by
  have key : ∀ (cmds : List Cmd) (σ : SysState),
      ¬ σ.core.playerState = LottiePlayerState.Frozen →
      ¬ (run cfg σ cmds).1.core.playerState = LottiePlayerState.Frozen := by
    intro cmds
    induction cmds with
    | nil => intro σ h; simpa [run] using h
    | cons c cs ih =>
      intro σ h
      simpa [run] using ih _ (step_not_frozen cfg σ c h)
  simpa [beq_eq_false_iff_ne] using key cmds initState (by decide)

/-- The two player events that are declared but never emitted. -/
def Eff.isForbiddenEmit : Eff → Bool
  | .playerEvent .Error => true
  | .playerEvent .Freeze => true
  | _ => false

/-- Nothing in a bind trace is a forbidden emission. -/
theorem no_forbidden_of_mem_bind_trace {cfg : Config} {item : Option AnimationItem}
    {fA : String → Bool} {s : PlayerCoreState} {e : Eff}
    (he : e ∈ (bind cfg item fA s).trace) : (!e.isForbiddenEmit) = true := by
  rcases item with _ | it
  · simp [bind] at he
  · rw [bind_some_trace] at he
    rcases List.mem_append.mp he with hout | hreg
    · rcases eq_of_mem_setPlayerState_out hout with rfl | rfl <;> rfl
    · rcases List.mem_flatten.mp hreg with ⟨l, hl, hel⟩
      rcases List.mem_map.mp hl with ⟨n, _, rfl⟩
      rw [eq_of_mem_registerStep hel]
      rfl

/-- Nothing in a teardown trace is a forbidden emission. -/
theorem no_forbidden_of_mem_teardown_trace {cfg : Config} {fR : String → Bool}
    {s : PlayerCoreState} {e : Eff}
    (he : e ∈ (teardown cfg fR s).2) : (!e.isForbiddenEmit) = true := by
  rw [teardown_trace] at he
  rcases List.mem_append.mp he with hrem | hout
  · rcases List.mem_flatten.mp hrem with ⟨l, hl, hel⟩
    rcases List.mem_map.mp hl with ⟨n, _, rfl⟩
    rw [eq_of_mem_deregisterStep hel]
    rfl
  · rcases eq_of_mem_setPlayerState_out hout with rfl | rfl <;> rfl

/-- No single step puts the `Error` or `Freeze` player event in the trace. -/
theorem step_no_forbidden_emit (cfg : Config) (σ : SysState) (c : Cmd) {e : Eff}
    (he : e ∈ (step cfg σ c).2) : (!e.isForbiddenEmit) = true := by
  obtain ⟨core, hdl, bnd⟩ := σ
  cases c with
  | play =>
    cases hdl with
    | none => simp [step, play] at he
    | some it =>
      simp only [step, play] at he
      rcases List.mem_append.mp he with h1 | hout
      · rcases List.mem_append.mp h1 with ht | hx
        · rw [eq_of_mem_triggerEvent ht]; rfl
        · rw [List.mem_singleton.mp hx]; rfl
      · rcases eq_of_mem_setPlayerState_out hout with rfl | rfl <;> rfl
  | pause =>
    cases hdl with
    | none => simp [step, pause] at he
    | some it =>
      simp only [step, pause] at he
      rcases List.mem_append.mp he with h1 | hout
      · rcases List.mem_append.mp h1 with ht | hx
        · rw [eq_of_mem_triggerEvent ht]; rfl
        · rw [List.mem_singleton.mp hx]; rfl
      · rcases eq_of_mem_setPlayerState_out hout with rfl | rfl <;> rfl
  | stop =>
    cases hdl with
    | none => simp [step, stop] at he
    | some it =>
      simp only [step, stop] at he
      rcases List.mem_append.mp he with h1 | hout
      · rcases List.mem_append.mp h1 with ht | hx
        · rw [eq_of_mem_triggerEvent ht]; rfl
        · rw [List.mem_singleton.mp hx]; rfl
      · rcases eq_of_mem_setPlayerState_out hout with rfl | rfl <;> rfl
  | setSpeed v =>
    cases hdl with
    | none => simp [step, setSpeed] at he
    | some it =>
      simp only [step, setSpeed] at he
      rw [List.mem_singleton.mp he]
      rfl
  | setSeeker seek sp =>
    have he2 : e ∈ (setSeeker cfg hdl core seek sp).2 := he
    unfold setSeeker at he2
    split at he2 <;>
    · simp only [] at he2
      rcases List.mem_append.mp he2 with hact | hout
      · cases hdl <;> simp at hact
        rw [hact]; rfl
      · rcases eq_of_mem_setPlayerState_out hout with rfl | rfl <;> rfl
  | engine ev =>
    cases bnd with
    | none => simp [step] at he
    | some b =>
      have he2 : e ∈ (handleEngineEvent cfg b.item b.capturedFrame core ev).2 := he
      cases ev with
      | complete =>
        simp only [handleEngineEvent] at he2
        rcases List.mem_append.mp he2 with hout | ht
        · rcases eq_of_mem_setPlayerState_out hout with rfl | rfl <;> rfl
        · rw [eq_of_mem_triggerEvent ht]; rfl
      | loopComplete =>
        rw [eq_of_mem_triggerEvent he2]; rfl
      | enterFrame r =>
        simp only [handleEngineEvent] at he2
        split at he2
        · rcases List.mem_append.mp he2 with ht | hx
          · rw [eq_of_mem_triggerEvent ht]; rfl
          · rw [List.mem_singleton.mp hx]; rfl
        · rw [eq_of_mem_triggerEvent he2]; rfl
      | segmentStart => simp [handleEngineEvent] at he2
      | configReady => simp [handleEngineEvent] at he2
      | dataReady => rw [eq_of_mem_triggerEvent he2]; rfl
      | dataFailed =>
        rcases eq_of_mem_setPlayerState_out he2 with rfl | rfl <;> rfl
      | loadedImages => simp [handleEngineEvent] at he2
      | domLoaded =>
        simp only [handleEngineEvent] at he2
        rcases List.mem_append.mp he2 with ht | hout
        · rw [eq_of_mem_triggerEvent ht]; rfl
        · rcases eq_of_mem_setPlayerState_out hout with rfl | rfl <;> rfl
      | destroyed => simp [handleEngineEvent] at he2
  | rebind item fA fR =>
    cases bnd with
    | none =>
      have he2 : e ∈ ([] : List Eff) ++ (bind cfg item fA core).trace := he
      rw [List.nil_append] at he2
      exact no_forbidden_of_mem_bind_trace he2
    | some b =>
      have he2 : e ∈ (teardown cfg fR core).2 ++
          (bind cfg item fA (teardown cfg fR core).1).trace := he
      rcases List.mem_append.mp he2 with htd | hbd
      · exact no_forbidden_of_mem_teardown_trace htd
      · exact no_forbidden_of_mem_bind_trace hbd

/-- C10: along every sequence of engine events, control-surface calls and
handle rebinds, the `Error` and `Freeze` player events are never passed to
`onPlayerEvent`. -/
theorem error_freeze_never_emitted (cfg : Config) (cmds : List Cmd) :
    ((run cfg initState cmds).2.all fun e => !e.isForbiddenEmit) = true := by
  have key : ∀ (cmds : List Cmd) (σ : SysState),
      ((run cfg σ cmds).2.all fun e => !e.isForbiddenEmit) = true := by
    intro cmds
    induction cmds with
    | nil => intro σ; rfl
    | cons c cs ih =>
      intro σ
      have h1 : ((step cfg σ c).2.all fun e => !e.isForbiddenEmit) = true :=
        List.all_eq_true.mpr fun e he => step_no_forbidden_emit cfg σ c he
      have h2 := ih (step cfg σ c).1
      simp [run, List.all_append, h1, h2]
  exact key cmds initState

end LottieReact
